import Mathlib

/-
  Shallow embedding of the query-construction and feature-assembly pipeline of
  src/src/from-ground-up.js (avalanche-terrain database → GeoJSON / KML exporter).

  Modelling conventions:
  * JavaScript numbers flowing through GeoJSON geometry are modelled as rationals.
    Their canonical string rendering (Number.prototype.toString) is modelled by
    numStr, and Number.parseFloat by parseFloatQ; the pair shares the properties
    that matter to the source (injective, separator-free output, round-trip).
  * JavaScript exceptions are modelled with Except String; a thrown TypeError is
    an Except.error value.
  * undefined and absent object fields are modelled with Option; the distinction
    between undefined and null, where the source inspects it with typeof, is
    modelled by JsArg.
  * Promise results are modelled by POutcome: a promise that settles is fulfilled
    or rejected, one that never settles is pending.
-/

namespace FromGroundUp

/-- A JavaScript argument that can be undefined, null, or a string; used where
the source distinguishes them with typeof (the Query geometry_column slot). -/
inductive JsArg
| undef
| nullArg
| strArg (s : String)
deriving DecidableEq

/-- Model of the JavaScript typeof operator on a JsArg. Note typeof null is
the string object, never the string null. -/
def jsTypeof : JsArg → String
| .undef => "undefined"
| .nullArg => "object"
| .strArg _ => "string"

/-- typeof applied to the stored geometry_column field, which is either the JS
null value (modelled none) or a string. -/
def jsTypeofOptStr : Option String → String
| none => "object"
| some _ => "string"

/-- JS truthiness of an optional boolean: undefined and false are falsy. -/
def truthyB : Option Bool → Bool
| none => false
| some b => b

/-- JS truthiness of an optional string: undefined and the empty string are falsy. -/
def truthyS : Option String → Bool
| none => false
| some s => s != ""

/-- JS truthiness of an optional number: undefined and 0 are falsy. -/
def truthyN : Option Nat → Bool
| none => false
| some n => n != 0

/-- String interpolation of an optional string, as a JS template literal would
render it (null renders as the text null). -/
def jsInterpOpt : Option String → String
| none => "null"
| some s => s

/-- The per-locale display-name table from the Query constructor
(from-ground-up.js lines 40-57). -/
def namesTable : List (String × List (String × String)) :=
  [("en",
    [("areas_vw", "Area"),
     ("points_of_interest", "Points of interest"),
     ("access_roads", "Access road"),
     ("avalanche_paths", "Avalanche path"),
     ("decision_points", "Decision point"),
     ("zones", "Zone")]),
   ("fr",
    [("areas_vw", "Régions"),
     ("points_of_interest", "Points d\x27intérêt"),
     ("access_roads", "Routes d\x27accès"),
     ("avalanche_paths", "Couloirs d’avalanche"),
     ("decision_points", "point de décision"),
     ("zones", "Zone")])]

/-- this.lang = lang or en: undefined and the empty string fall back to en. -/
def langOf : Option String → String
| none => "en"
| some s => if s = "" then "en" else s

/-- The switch on ogr_type: KML selects ST_AsKML, GeoJSON and every other value
(the default case) select ST_AsGeoJSON. -/
def geometryTransformationOf : Option String → String
| some s => if s = "KML" then "ST_AsKML" else "ST_AsGeoJSON"
| none => "ST_AsGeoJSON"

/-- The fields the Query constructor stores on this (from-ground-up.js 37-91). -/
structure Query where
  table : String
  non_geometry_columns : List String
  where_clause : String
  ogr_type : Option String
  geometry_column : Option String
  bounding_box : Bool
  lang : String
  name : Option String
  geometry_transformation : String
  to_query : String
deriving DecidableEq

/-- The Query constructor body. The subquery argument is stored but never read
downstream, so it is accepted and dropped here. The geometry_column field is
computed by the source line 64 conditional, whose typeof test against the
string null can never succeed, and the to_query branch on line 84 repeats the
same dead test. -/
def mkQuery (table : String) (non_geometry_columns : List String)
    (where_clause : String) (ogr_type : Option String) (lang : Option String)
    (bounding_box : Option Bool) (_subquery : JsArg) (geometry_column : JsArg) :
    Query :=
  let gcol : Option String :=
    if jsTypeof geometry_column = "null" then none else some "geom"
  let xf := geometryTransformationOf ogr_type
  let cols := String.intercalate ", " non_geometry_columns
  let toQ :=
    if jsTypeofOptStr gcol = "null" then
      "SELECT " ++ cols ++ " FROM " ++ table ++ " WHERE " ++ where_clause ++ ";"
    else if truthyB bounding_box then
      "SELECT " ++ xf ++ "(" ++ jsInterpOpt gcol ++ ") AS geometry, " ++ xf ++
        "(ST_Envelope(" ++ jsInterpOpt gcol ++ ")) AS bounding_box, " ++ cols ++
        " FROM " ++ table ++ " WHERE " ++ where_clause ++ ";"
    else
      "SELECT " ++ xf ++ "(" ++ jsInterpOpt gcol ++ ") AS geometry, " ++ cols ++
        " FROM " ++ table ++ " WHERE " ++ where_clause ++ ";"
  { table := table
    non_geometry_columns := non_geometry_columns
    where_clause := where_clause
    ogr_type := ogr_type
    geometry_column := gcol
    bounding_box := (bounding_box.getD false)
    lang := langOf lang
    name := (namesTable.lookup (langOf lang)).bind (fun m => m.lookup table)
    geometry_transformation := xf
    to_query := toQ }

/-- The Query constructor with the JS exception made explicit: reading
names[this.lang][table] throws a TypeError when the locale is not a key of the
name table (names[this.lang] is undefined); a missing table key merely yields
undefined. -/
def mkQueryE (table : String) (non_geometry_columns : List String)
    (where_clause : String) (ogr_type : Option String) (lang : Option String)
    (bounding_box : Option Bool) (subquery : JsArg) (geometry_column : JsArg) :
    Except String Query :=
  match namesTable.lookup (langOf lang) with
  | none => .error "TypeError: Cannot read properties of undefined (reading table name)"
  | some _ =>
      .ok (mkQuery table non_geometry_columns where_clause ogr_type lang
        bounding_box subquery geometry_column)

/-- Spec wording for claim C6: the compiled SQL for a layer without a geometry
column, exactly SELECT columns FROM table WHERE filter. -/
def specSelectNoGeometry (table : String) (cols : List String)
    (where_clause : String) : String :=
  "SELECT " ++ String.intercalate ", " cols ++ " FROM " ++ table ++ " WHERE " ++
    where_clause

/-- Claim C6 (code bug): a Query constructed with a null geometry column is
claimed to compile to SQL with no geometry-transform term, but the typeof test
guarding that branch can never see the string null, so the constructor always
uses the geometry column geom. Evaluated at the decision_points_warnings
construction from the source (geometry_column passed as null), the compiled
SQL carries the ST_AsGeoJSON transform and differs from the claimed form. -/
theorem null_geometry_column_query_eval :
    (mkQuery "decision_points_warnings" ["warning", "type"]
        "decision_point_id=$1" none none none JsArg.undef JsArg.nullArg).to_query
      = "SELECT ST_AsGeoJSON(geom) AS geometry, warning, type FROM decision_points_warnings WHERE decision_point_id=$1;"
    ∧ (mkQuery "decision_points_warnings" ["warning", "type"]
        "decision_point_id=$1" none none none JsArg.undef JsArg.nullArg).to_query
      ≠ specSelectNoGeometry "decision_points_warnings" ["warning", "type"]
          "decision_point_id=$1" := by
  exact ⟨rfl, by decide⟩

/-- Claim C7: with the bounding-box flag true, the compiled select list is the
geometry transform of the geometry column aliased geometry, then the transform
of its ST_Envelope aliased bounding_box, then the non-geometry columns; with
the flag false, a single geometry-transform term followed by the columns. -/
theorem query_bounding_box_select_shape (table : String) (cols : List String)
    (wc : String) (ot : Option String) (lang : Option String) (sq gc : JsArg) :
    (mkQuery table cols wc ot lang (some true) sq gc).to_query
      = "SELECT " ++ geometryTransformationOf ot ++ "(geom) AS geometry, " ++
          geometryTransformationOf ot ++ "(ST_Envelope(geom)) AS bounding_box, " ++
          String.intercalate ", " cols ++ " FROM " ++ table ++ " WHERE " ++ wc ++ ";"
    ∧ (mkQuery table cols wc ot lang (some false) sq gc).to_query
      = "SELECT " ++ geometryTransformationOf ot ++ "(geom) AS geometry, " ++
          String.intercalate ", " cols ++ " FROM " ++ table ++ " WHERE " ++ wc ++ ";" := by
  cases gc <;> refine ⟨?_, ?_⟩ <;>
    simp only [mkQuery, jsTypeof, jsTypeofOptStr, truthyB, jsInterpOpt,
      String.append_assoc] <;> rfl

/-- A geometry payload as it arrives from the database on the GeoJSON path: a
JSON text that is either a Point (carrying numeric coordinates), some other
valid JSON geometry, or a non-JSON payload (for instance KML reaching the
GeoJSON path); payloads are modelled in parsed-or-malformed form. -/
inductive GeomPayload
| jsonPoint (coordinates : List ℚ)
| jsonOther (tag : String)
| malformed (payload : String)
deriving DecidableEq

/-- Whether the payload is a JSON Point. -/
def GeomPayload.isPoint : GeomPayload → Bool
| .jsonPoint _ => true
| _ => false

/-- The coordinates member of a parsed geometry (a Point); other geometries
have no coordinates read by the decision-point aggregation. -/
def coordsOf : GeomPayload → List ℚ
| .jsonPoint cs => cs
| _ => []

/-- A raw database row on the GeoJSON path. The columns the Feature
constructor inspects by name are explicit fields; every other selected column
sits in others. -/
structure GRow where
  geometry : GeomPayload
  bounding_box : Option String
  type : Option String
  warning : Option String
  others : List (String × String)
deriving DecidableEq

/-- Model of String.prototype.toLowerCase for the characters this data uses. -/
def jsToLower (s : String) : String := ⟨s.data.map Char.toLower⟩

/-- Model of String.prototype.replace with the single-character pattern a
space: only the first occurrence is replaced. -/
def replaceFirstSpace : List Char → List Char
| [] => []
| c :: cs => if c = ' ' then '-' :: cs else c :: replaceFirstSpace cs

/-- The type normalization of the Feature constructor (line 202):
toLowerCase().replace(a space, a hyphen). -/
def slugType (s : String) : String := ⟨replaceFirstSpace (jsToLower s).data⟩

/-- Spec wording for claim C5: the canonical slug, lowercase with every space
replaced by a hyphen. -/
def specSlug (s : String) : String :=
  ⟨(jsToLower s).data.map (fun c => if c = ' ' then '-' else c)⟩

/-- A GeoJSON Feature as built by the Feature constructor (lines 185-207).
The properties object is the row object itself, mutated in place; its fields
are flattened here with a props prefix. Note the constructor deletes
bounding_box from properties (so no props bounding box field exists) but never
deletes the geometry column, which therefore stays in properties. -/
structure GFeature where
  geometry : GeomPayload
  bounding_box : Option String
  props_geometry : Option GeomPayload
  props_type : Option String
  props_warning : Option String
  props_table : String
  props_others : List (String × String)
deriving DecidableEq

/-- The row-to-Feature path of geojsonQueryDatabase (lines 133-147) composed
with the Feature constructor: tag the row with its table, hand
row[geometry_column] to the constructor together with the whole row as
properties; JSON.parse throws on a malformed payload; bounding_box is hoisted
and removed; a present type is slugged; properties.table is set to the tag. -/
def featureOfRow (tbl : String) (row : GRow) : Except String GFeature :=
  match row.geometry with
  | .malformed _ => .error "TypeError: geometry isn\x27t geojson"
  | g =>
      .ok { geometry := g
            bounding_box := row.bounding_box
            props_geometry := some row.geometry
            props_type := row.type.map slugType
            props_warning := row.warning
            props_table := tbl
            props_others := row.others }

/-- Concrete row for claim C4: a points-of-interest row with one extra column. -/
def rowC4 : GRow :=
  { geometry := .jsonPoint [1, 2]
    bounding_box := none
    type := none
    warning := none
    others := [("id", "7")] }

/-- Claim C4 counterexample: the geometry column is not removed from the
returned Feature properties; at this concrete row the properties still carry
the raw geometry payload. -/
theorem feature_retains_geometry_property :
    (featureOfRow "points_of_interest" rowC4).map GFeature.props_geometry
      = .ok (some (.jsonPoint [1, 2]))
    ∧ (featureOfRow "points_of_interest" rowC4).map GFeature.props_geometry
      ≠ .ok none := by
  refine ⟨rfl, fun hc => ?_⟩
  have h1 : (featureOfRow "points_of_interest" rowC4).map GFeature.props_geometry
      = .ok (some (.jsonPoint [1, 2])) := rfl
  rw [h1] at hc
  exact Option.noConfusion (Except.ok.inj hc)

/-- Claim C4 amended: the geometry field is extracted and parsed into the
Feature geometry (and bounding_box is hoisted out of properties), but the
geometry column is not removed: the properties mapping retains the raw
geometry payload. -/
theorem feature_geometry_not_removed (tbl : String) (row : GRow) (f : GFeature)
    (h : featureOfRow tbl row = .ok f) :
    f.props_geometry = some row.geometry ∧ f.geometry = row.geometry
    ∧ f.bounding_box = row.bounding_box := by
  cases hg : row.geometry with
  | jsonPoint cs =>
      rw [featureOfRow, hg] at h
      have h2 := Except.ok.inj h
      subst h2
      exact ⟨rfl, rfl, rfl⟩
  | jsonOther t =>
      rw [featureOfRow, hg] at h
      have h2 := Except.ok.inj h
      subst h2
      exact ⟨rfl, rfl, rfl⟩
  | malformed p =>
      rw [featureOfRow, hg] at h
      exact absurd h (by simp)

/-- Witness for the amended C4 theorem at the concrete row rowC4. -/
theorem feature_geometry_not_removed_w :
    ({ geometry := .jsonPoint [1, 2]
       bounding_box := none
       props_geometry := some (.jsonPoint [1, 2])
       props_type := none
       props_warning := none
       props_table := "points_of_interest"
       props_others := [("id", "7")] } : GFeature).props_geometry
      = some rowC4.geometry :=
  (feature_geometry_not_removed "points_of_interest" rowC4 _ rfl).1

/-- A successful Feature construction determines every field of the output
from the row: helper used to reason about the row-to-Feature map. -/
lemma featureOfRow_ok (tbl : String) (row : GRow) (f : GFeature)
    (h : featureOfRow tbl row = .ok f) :
    f = { geometry := row.geometry
          bounding_box := row.bounding_box
          props_geometry := some row.geometry
          props_type := row.type.map slugType
          props_warning := row.warning
          props_table := tbl
          props_others := row.others } := by
  cases hg : row.geometry with
  | jsonPoint cs =>
      rw [featureOfRow, hg] at h
      have h2 := Except.ok.inj h
      subst h2
      rfl
  | jsonOther t =>
      rw [featureOfRow, hg] at h
      have h2 := Except.ok.inj h
      subst h2
      rfl
  | malformed p =>
      rw [featureOfRow, hg] at h
      exact absurd h (by simp)

/-- The character list of a string around a single explicit space. -/
lemma data_append_space (a b : String) :
    (a ++ " " ++ b).data = a.data ++ ' ' :: b.data := by
  rw [String.data_append, String.data_append, List.append_assoc]
  rfl

/-- replace with a space pattern walks past a space-free prefix and rewrites
exactly the first space. -/
lemma replaceFirstSpace_past_clean (xs ys : List Char)
    (hx : ∀ c ∈ xs, ¬ c = ' ') :
    replaceFirstSpace (xs ++ ' ' :: ys) = xs ++ '-' :: ys := by
  induction xs with
  | nil => rw [List.nil_append, replaceFirstSpace, if_pos rfl, List.nil_append]
  | cons c cs ih =>
      rw [List.cons_append, replaceFirstSpace, if_neg (hx c (by simp)),
        ih (fun d hd => hx d (List.mem_cons_of_mem _ hd)), List.cons_append]

/-- Concrete row for claim C5: a type value with two spaces. -/
def rowC5 : GRow :=
  { geometry := .jsonPoint [1, 2]
    bounding_box := none
    type := some "A B C"
    warning := none
    others := [] }

/-- Claim C5 counterexample: the Feature constructor lowercases the type but
replaces only the first space with a hyphen; on the type A B C it produces
a-b c, not the canonical all-spaces slug a-b-c the claim states. -/
theorem type_slug_first_space_counterexample :
    (featureOfRow "points_of_interest" rowC5).map GFeature.props_type
      = .ok (some "a-b c")
    ∧ specSlug "A B C" = "a-b-c"
    ∧ ¬ (featureOfRow "points_of_interest" rowC5).map GFeature.props_type
        = .ok (some (specSlug "A B C")) := by
  refine ⟨rfl, by decide, fun hc => ?_⟩
  have h1 : (featureOfRow "points_of_interest" rowC5).map GFeature.props_type
      = .ok (some "a-b c") := rfl
  rw [h1] at hc
  have h2 := Option.some.inj (Except.ok.inj hc)
  exact absurd h2 (by decide)

/-- Claim C5 amended: for a row whose type is present, the Feature type
property is the value lowercased with only the first space replaced by a
hyphen: spaces after the first survive. -/
theorem type_slug_first_space_only (tbl : String) (row : GRow) (f : GFeature)
    (a b : String) (h : featureOfRow tbl row = .ok f)
    (hty : row.type = some (a ++ " " ++ b))
    (ha : ∀ c ∈ (jsToLower a).data, ¬ c = ' ') :
    f.props_type = some (jsToLower a ++ "-" ++ jsToLower b) := by
  rw [featureOfRow_ok tbl row f h]
  show (row.type.map slugType) = _
  rw [hty]
  refine congrArg some ?_
  show String.mk (replaceFirstSpace (jsToLower (a ++ " " ++ b)).data) = _
  have hdata : (jsToLower (a ++ " " ++ b)).data
      = (jsToLower a).data ++ ' ' :: (jsToLower b).data := by
    show ((a ++ " " ++ b).data.map Char.toLower) = _
    rw [data_append_space, List.map_append, List.map_cons]
    rfl
  rw [hdata, replaceFirstSpace_past_clean _ _ ha]
  have hrhs : (jsToLower a ++ "-" ++ jsToLower b).data
      = (jsToLower a).data ++ '-' :: (jsToLower b).data := by
    rw [String.data_append, String.data_append, List.append_assoc]
    rfl
  exact (String.ext hrhs).symm

/-- Concrete row for the C5 witness: a type value with two spaces as it would
come from the database. -/
def rowC5w : GRow :=
  { geometry := .jsonPoint [1, 2]
    bounding_box := none
    type := some "Rescue Cache Extra"
    warning := none
    others := [] }

/-- The Feature built from rowC5w. -/
def featC5w : GFeature :=
  { geometry := .jsonPoint [1, 2]
    bounding_box := none
    props_geometry := some (.jsonPoint [1, 2])
    props_type := some (slugType "Rescue Cache Extra")
    props_warning := none
    props_table := "points_of_interest"
    props_others := [] }

/-- Witness for the amended C5 theorem: on the type Rescue Cache Extra only
the first space becomes a hyphen. -/
theorem type_slug_first_space_only_w :
    featC5w.props_type = some (jsToLower "Rescue" ++ "-" ++ jsToLower "Cache Extra") :=
  type_slug_first_space_only "points_of_interest" rowC5w featC5w
    "Rescue" "Cache Extra" rfl rfl (by decide)

/-- Claim C8 counterexample: constructing a layer over a table that is missing
from the locale name table does not fail; the constructor returns a Query
whose display name is undefined. -/
theorem unknown_table_constructs_layer :
    (mkQueryE "no_such_table" ["id"] "area_id=$1" none (some "en") none
        JsArg.undef JsArg.undef).map Query.name = .ok none := rfl

/-- Claim C8 amended: layer construction fails immediately only when the
locale (after the or-en default) is not a key of the name table; under a
supported locale a missing table key does not fail and yields an undefined
display name. -/
theorem layer_name_failure_amended (t : String) (cols : List String)
    (wc : String) (ot lang : Option String) (bb : Option Bool) (sq gc : JsArg) :
    ((¬ langOf lang = "en") → (¬ langOf lang = "fr") →
      mkQueryE t cols wc ot lang bb sq gc
        = .error "TypeError: Cannot read properties of undefined (reading table name)")
    ∧ (∀ m, namesTable.lookup (langOf lang) = some m → m.lookup t = none →
        mkQueryE t cols wc ot lang bb sq gc
          = .ok (mkQuery t cols wc ot lang bb sq gc)
        ∧ (mkQuery t cols wc ot lang bb sq gc).name = none) := by
  constructor
  · intro h1 h2
    have hln : namesTable.lookup (langOf lang) = none := by
      have e1 : (langOf lang == "en") = false := beq_eq_false_iff_ne.mpr h1
      have e2 : (langOf lang == "fr") = false := beq_eq_false_iff_ne.mpr h2
      simp [namesTable, List.lookup, e1, e2]
    simp only [mkQueryE, hln]
  · intro m hm hnone
    refine ⟨by simp only [mkQueryE, hm], ?_⟩
    show (namesTable.lookup (langOf lang)).bind (fun mm => mm.lookup t) = none
    rw [hm]
    exact hnone

/-- Witness for the amended C8 theorem: an unsupported locale throws, and a
missing table under locale en yields a layer with an undefined name. -/
theorem layer_name_failure_amended_w :
    mkQueryE "zones" ["id"] "area_id=$1" none (some "de") none
        JsArg.undef JsArg.undef
      = .error "TypeError: Cannot read properties of undefined (reading table name)"
    ∧ (mkQuery "no_such_table" ["id"] "area_id=$1" none (some "en") none
        JsArg.undef JsArg.undef).name = none := by
  constructor
  · exact (layer_name_failure_amended "zones" ["id"] "area_id=$1" none
      (some "de") none JsArg.undef JsArg.undef).1 (by decide) (by decide)
  · exact ((layer_name_failure_amended "no_such_table" ["id"] "area_id=$1" none
      (some "en") none JsArg.undef JsArg.undef).2 _ rfl (by decide)).2

/-- Model of the canonical string rendering of a JS number
(Number.prototype.toString): the rational in lowest terms, num or num/den.
Its output never contains a comma or a space, it is injective, and
parseFloatQ inverts it; those are the properties the aggregation key relies
on, and together with parseFloatQ it models the toString/parseFloat pair. -/
def numStr (q : ℚ) : String :=
  if q.den = 1 then toString q.num else toString q.num ++ "/" ++ toString q.den

/-- Model of String.prototype.split on the two-character separator comma
space, written as structural recursion over the character list so that it
evaluates inside proofs. -/
def splitCommaSpace : List Char → List (List Char)
| [] => [[]]
| ',' :: ' ' :: rest => [] :: splitCommaSpace rest
| c :: rest =>
    match splitCommaSpace rest with
    | [] => [[c]]
    | g :: gs => (c :: g) :: gs

/-- Split on a single-character separator, structurally. -/
def splitChar (sep : Char) : List Char → List (List Char)
| [] => [[]]
| c :: rest =>
    if c = sep then [] :: splitChar sep rest
    else
      match splitChar sep rest with
      | [] => [[c]]
      | g :: gs => (c :: g) :: gs

/-- JS split(comma space) on strings. -/
def jsSplitCommaSpace (s : String) : List String :=
  (splitCommaSpace s.data).map String.mk

/-- Decimal digits to a natural number. -/
def parseNatChars (l : List Char) : ℕ :=
  l.foldl (fun acc c => acc * 10 + (c.toNat - 48)) 0

/-- Decimal digits with an optional leading minus sign to an integer. -/
def parseIntChars : List Char → ℤ
| '-' :: cs => - (parseNatChars cs : ℤ)
| cs => (parseNatChars cs : ℤ)

/-- Model of Number.parseFloat on strings produced by numStr. -/
def parseFloatQ (s : String) : ℚ :=
  match splitChar '/' s.data with
  | [a] => ((parseIntChars a : ℤ) : ℚ)
  | [a, b] => ((parseIntChars a : ℤ) : ℚ) / ((parseNatChars b : ℕ) : ℚ)
  | _ => 0

/-- Model of Ramda uniq: first occurrences, in order. -/
def uniqFirst {α : Type} [DecidableEq α] : List α → List α
| [] => []
| a :: l => a :: uniqFirst (l.filter (fun b => b != a))
termination_by l => l.length
decreasing_by
  exact Nat.lt_succ_of_le (List.length_filter_le _ _)

/-- The join(comma-space) of a coordinates array (warnify getGeometries). -/
def joinKey (cs : List ℚ) : String :=
  String.intercalate ", " (cs.map numStr)

/-- The JS object-key coercion of an array of strings (Array.prototype
toString joins with a bare comma). -/
def jsKeyOfStrs (g : List String) : String :=
  String.intercalate "," g

/-- The JS object-key coercion of a coordinates array of numbers. -/
def jsKeyOfCoords (cs : List ℚ) : String :=
  String.intercalate "," (cs.map numStr)

/-- warnify getGeometries (lines 224-232): map each feature to the
comma-space join of its geometry coordinates, uniq, then split each joined
string back on comma-space. -/
def getGeometries (fs : List GFeature) : List (List String) :=
  (uniqFirst (fs.map (fun f => joinKey (coordsOf f.geometry)))).map
    jsSplitCommaSpace

/-- The per-coordinate accumulator object of warnify: the two warning lists,
plus every other property merged from consumed rows (the geometry and table
columns the Feature kept, and the remaining columns). -/
structure WAcc where
  managingRisk : List (Option String)
  concern : List (Option String)
  acc_geometry : Option GeomPayload
  acc_table : Option String
  acc_others : List (String × String)
deriving DecidableEq

/-- The fresh accumulator installed for every distinct coordinate key. -/
def emptyWAcc : WAcc :=
  { managingRisk := [], concern := [], acc_geometry := none, acc_table := none,
    acc_others := [] }

/-- JS object property assignment on an association list: replace in place if
the key exists, else append. -/
def setKeyV {β : Type} (k : String) (v : β) : List (String × β) → List (String × β)
| [] => [(k, v)]
| (k0, v0) :: m => if k0 = k then (k, v) :: m else (k0, v0) :: setKeyV k v m

/-- In-place update of the entry at a key, leaving the map unchanged when the
key is absent. -/
def updFirst {β : Type} (k : String) (g : β → β) :
    List (String × β) → List (String × β)
| [] => []
| (k0, a) :: m => if k0 = k then (k0, g a) :: m else (k0, a) :: updFirst k g m

/-- The push into the warning list selected by the row type (line 249); only
called for the two recognized categories. -/
def pushW (ty : String) (w : Option String) (a : WAcc) : WAcc :=
  if ty = "managing-risk" then { a with managingRisk := a.managingRisk ++ [w] }
  else { a with concern := a.concern ++ [w] }

/-- The for-in merge of the remaining row properties into the accumulator
(lines 250-256), after warning and type have been deleted: the geometry and
table properties the Feature kept, then the other columns, assigned key by
key with last-row-wins. -/
def mergeProps (r : GFeature) (a : WAcc) : WAcc :=
  { a with
    acc_geometry :=
      match r.props_geometry with
      | some g => some g
      | none => a.acc_geometry
    acc_table := some r.props_table
    acc_others := r.props_others.foldl (fun m kv => setKeyV kv.1 kv.2 m) a.acc_others }

/-- One iteration of the warnify row loop (lines 245-260): look the row
coordinates up in the accumulator map and push the warning into the list
named by the row type; an absent key or an unrecognized type throws inside
the try and the row is skipped whole (its deletes and merges never run). -/
def warnStep (m : List (String × WAcc)) (r : GFeature) : List (String × WAcc) :=
  let key := jsKeyOfCoords (coordsOf r.geometry)
  match m.lookup key with
  | none => m
  | some _ =>
      match r.props_type with
      | none => m
      | some ty =>
          if ty = "managing-risk" ∨ ty = "concern" then
            updFirst key (fun a => mergeProps r (pushW ty r.props_warning a)) m
          else m

/-- The initialization loop (lines 236-243): one empty accumulator per
geometry, keyed by the JS object-key coercion of the split coordinate list. -/
def initWMap (geoms : List (List String)) : List (String × WAcc) :=
  geoms.foldl (fun m g => setKeyV (jsKeyOfStrs g) emptyWAcc m) []

/-- The whole accumulator map for a feature list. -/
def warnifyAcc (fs : List GFeature) : List (String × WAcc) :=
  fs.foldl warnStep (initWMap (getGeometries fs))

/-- JSON string escaping for the stringified warning lists. -/
def escapeJson (s : String) : String :=
  ⟨s.data.foldr
    (fun c acc =>
      if c = '"' then '\\' :: '"' :: acc
      else if c = '\\' then '\\' :: '\\' :: acc
      else c :: acc) []⟩

/-- JSON.stringify of one warning list (null for an undefined entry). -/
def renderWList (ws : List (Option String)) : String :=
  String.intercalate ","
    (ws.map (fun w =>
      match w with
      | none => "null"
      | some s => "\"" ++ escapeJson s ++ "\""))

/-- flatten_warnings = JSON.stringify applied to the two-list warnings object
(line 263), keys in insertion order. -/
def warnJson (a : WAcc) : String :=
  "\x7b\"managing-risk\":[" ++ renderWList a.managingRisk ++ "],\"concern\":[" ++
    renderWList a.concern ++ "]\x7d"

/-- One synthesized output Feature per distinct geometry (lines 266-275): a
new Feature whose geometry is a Point over the parseFloat of the split
coordinate strings, whose table tag is decision_points, and whose properties
are the accumulator with its warnings object stringified. The input rows
carry no bounding_box, type, warning or reserved keys at this stage (the
Feature constructor already consumed them), so the constructor leaves the
accumulator properties as they stand. -/
def outFeature (g : List String) (a : WAcc) : GFeature :=
  { geometry := .jsonPoint (g.map parseFloatQ)
    bounding_box := none
    props_geometry := a.acc_geometry
    props_type := none
    props_warning := none
    props_table := "decision_points"
    props_others := ("warnings", warnJson a) :: a.acc_others }

/-- warnify for the GeoJSON path (lines 221-278). -/
def warnify (fs : List GFeature) : List GFeature :=
  let geoms := getGeometries fs
  let acc := warnifyAcc fs
  geoms.map (fun g => outFeature g ((acc.lookup (jsKeyOfStrs g)).getD emptyWAcc))

/-- The number of collected warning strings over a whole accumulator map. -/
def totalWarnings (m : List (String × WAcc)) : ℕ :=
  (m.map (fun e => e.2.managingRisk.length + e.2.concern.length)).sum

/-- Whether a row carries one of the two recognized warning categories. -/
def isRecognizedWarning (f : GFeature) : Bool :=
  f.props_type == some "concern" || f.props_type == some "managing-risk"

/-- uniqFirst keeps exactly the members of its input. -/
lemma mem_uniqFirst {α : Type} [DecidableEq α] (l : List α) (x : α) :
    x ∈ uniqFirst l ↔ x ∈ l := by
  induction l using uniqFirst.induct with
  | case1 => rw [uniqFirst]
  | case2 a l ih =>
      rw [uniqFirst]
      by_cases hx : x = a
      · subst hx; simp
      · simp only [List.mem_cons, ih, List.mem_filter, bne_iff_ne, ne_eq, hx,
          or_false, false_or, not_false_eq_true, and_true]

/-- uniqFirst has no duplicates. -/
lemma nodup_uniqFirst {α : Type} [DecidableEq α] (l : List α) :
    (uniqFirst l).Nodup := by
  induction l using uniqFirst.induct with
  | case1 => rw [uniqFirst]; exact List.nodup_nil
  | case2 a l ih =>
      rw [uniqFirst]
      refine List.Nodup.cons (fun hmem => ?_) ih
      have := (mem_uniqFirst _ _).1 hmem
      rw [List.mem_filter, bne_iff_ne] at this
      exact this.2 rfl

/-- uniqFirst counts exactly the distinct members, like dedup. -/
lemma length_uniqFirst_eq_dedup {α : Type} [DecidableEq α] (l : List α) :
    (uniqFirst l).length = l.dedup.length := by
  have h1 : (uniqFirst l).toFinset = l.toFinset := by
    ext x
    simp [mem_uniqFirst]
  have h2 := List.toFinset_card_of_nodup (nodup_uniqFirst l)
  have h3 := List.card_toFinset l
  rw [h1, h3] at h2
  exact h2.symm

/-- uniqFirst commutes with an injective-on-the-list map. -/
lemma uniqFirst_map {α β : Type} [DecidableEq α] [DecidableEq β]
    (k : α → β) (l : List α)
    (hinj : ∀ x ∈ l, ∀ y ∈ l, k x = k y → x = y) :
    uniqFirst (l.map k) = (uniqFirst l).map k := by
  induction l using uniqFirst.induct with
  | case1 => rw [List.map_nil, uniqFirst, uniqFirst, List.map_nil]
  | case2 a l ih =>
      rw [List.map_cons, uniqFirst, uniqFirst, List.map_cons]
      have hfil : (l.map k).filter (fun b => b != k a)
          = (l.filter (fun b => b != a)).map k := by
        rw [List.filter_map k l]
        refine congrArg _ (List.filter_congr ?_)
        intro x hx
        show (k x != k a) = (x != a)
        by_cases hxa : x = a
        · subst hxa; simp
        · have : ¬ k x = k a := fun he =>
            hxa (hinj x (List.mem_cons_of_mem _ hx) a (List.mem_cons_self _ _) he)
          simp [bne, beq_eq_false_iff_ne.mpr this, beq_eq_false_iff_ne.mpr hxa]
      rw [hfil]
      refine congrArg _ (ih ?_)
      intro x hx y hy he
      exact hinj x (List.mem_cons_of_mem _ (List.mem_of_mem_filter hx))
        y (List.mem_cons_of_mem _ (List.mem_of_mem_filter hy)) he

/-- dedup length is preserved by an injective-on-the-list map. -/
lemma dedup_length_map {α β : Type} [DecidableEq α] [DecidableEq β]
    (k : α → β) (l : List α)
    (hinj : ∀ x ∈ l, ∀ y ∈ l, k x = k y → x = y) :
    (l.map k).dedup.length = l.dedup.length := by
  rw [← List.card_toFinset, ← List.card_toFinset]
  have himg : (l.map k).toFinset = l.toFinset.image k := by
    ext x
    simp
  rw [himg]
  exact Finset.card_image_of_injOn
    (fun x hx y hy hxy =>
      hinj x (by simpa using hx) y (by simpa using hy) hxy)

/-- Lookup after a JS-style assignment. -/
lemma lookup_setKeyV {β : Type} (k : String) (v : β) (m : List (String × β))
    (k' : String) :
    (setKeyV k v m).lookup k' = if k' = k then some v else m.lookup k' := by
  induction m with
  | nil =>
      by_cases h : k' = k
      · simp [setKeyV, List.lookup, h]
      · simp [setKeyV, List.lookup, h, beq_eq_false_iff_ne.mpr h]
  | cons e m ih =>
      obtain ⟨k0, v0⟩ := e
      by_cases h0 : k0 = k
      · by_cases h : k' = k
        · simp [setKeyV, List.lookup, h0, h]
        · have hne : ¬ k' = k0 := fun he => h (he.trans h0)
          simp [setKeyV, List.lookup, h0, h, beq_eq_false_iff_ne.mpr h,
            beq_eq_false_iff_ne.mpr hne]
      · by_cases h : k' = k0
        · have hne : ¬ k' = k := fun he => h0 (h.symm.trans he)
          simp [setKeyV, List.lookup, h0, h, hne, beq_eq_false_iff_ne.mpr hne]
        · simp [setKeyV, List.lookup, h0, h, ih, beq_eq_false_iff_ne.mpr h]

/-- Membership after a JS-style assignment. -/
lemma mem_setKeyV {β : Type} (k : String) (v : β) (m : List (String × β))
    (e : String × β) (he : e ∈ setKeyV k v m) : e = (k, v) ∨ e ∈ m := by
  induction m with
  | nil =>
      rw [setKeyV] at he
      rcases List.mem_singleton.1 he with h
      exact Or.inl h
  | cons e0 m ih =>
      obtain ⟨k0, v0⟩ := e0
      rw [setKeyV] at he
      by_cases h0 : k0 = k
      · rw [if_pos h0] at he
        rcases List.mem_cons.1 he with h | h
        · exact Or.inl h
        · exact Or.inr (List.mem_cons_of_mem _ h)
      · rw [if_neg h0] at he
        rcases List.mem_cons.1 he with h | h
        · exact Or.inr (h ▸ List.mem_cons_self _ _)
        · rcases ih h with h2 | h2
          · exact Or.inl h2
          · exact Or.inr (List.mem_cons_of_mem _ h2)

/-- Every accumulator installed by the initialization loop is the empty one. -/
lemma initWMap_values_empty (gs : List (List String)) (m0 : List (String × WAcc))
    (h0 : ∀ e ∈ m0, e.2 = emptyWAcc) :
    ∀ e ∈ gs.foldl (fun m g => setKeyV (jsKeyOfStrs g) emptyWAcc m) m0,
      e.2 = emptyWAcc := by
  induction gs generalizing m0 with
  | nil => exact h0
  | cons g gs ih =>
      rw [List.foldl_cons]
      refine ih _ (fun e he => ?_)
      rcases mem_setKeyV _ _ _ _ he with h | h
      · rw [h]
      · exact h0 e h

/-- The initialization loop collects no warnings. -/
lemma totalWarnings_initWMap (gs : List (List String)) :
    totalWarnings (initWMap gs) = 0 := by
  refine List.sum_eq_zero (fun x hx => ?_)
  rcases List.mem_map.1 hx with ⟨e, he, hex⟩
  have h2 := initWMap_values_empty gs [] (fun e he => absurd he (List.not_mem_nil e)) e he
  rw [← hex, h2]
  rfl

/-- Keys present after the initialization loop are exactly the initialized
geometry keys plus whatever the seed map already had. -/
lemma lookup_init_isSome (gs : List (List String)) (m0 : List (String × WAcc))
    (key : String) :
    ((gs.foldl (fun m g => setKeyV (jsKeyOfStrs g) emptyWAcc m) m0).lookup key).isSome
      = ((gs.any (fun g => jsKeyOfStrs g == key)) || (m0.lookup key).isSome) := by
  induction gs generalizing m0 with
  | nil => rw [List.foldl_nil, List.any_nil, Bool.false_or]
  | cons g gs ih =>
      rw [List.foldl_cons, List.any_cons, ih]
      by_cases h : jsKeyOfStrs g = key
      · simp [lookup_setKeyV, h]
      · have hb : (jsKeyOfStrs g == key) = false := beq_eq_false_iff_ne.mpr h
        have hne : ¬ key = jsKeyOfStrs g := fun he => h he.symm
        rw [lookup_setKeyV, if_neg hne, hb, Bool.false_or]

/-- updFirst never adds or removes keys. -/
lemma lookup_isSome_updFirst (k : String) (gfun : WAcc → WAcc)
    (m : List (String × WAcc)) (k' : String) :
    ((updFirst k gfun m).lookup k').isSome = (m.lookup k').isSome := by
  induction m with
  | nil => rw [updFirst]
  | cons e m ih =>
      obtain ⟨k0, a⟩ := e
      rw [updFirst]
      by_cases h0 : k0 = k
      · rw [if_pos h0]
        by_cases h : k' = k0
        · simp [List.lookup, h]
        · simp [List.lookup, beq_eq_false_iff_ne.mpr h]
      · rw [if_neg h0]
        by_cases h : k' = k0
        · simp [List.lookup, h]
        · simp [List.lookup, beq_eq_false_iff_ne.mpr h, ih]

/-- Updating an existing entry with a one-warning push grows the total count
by exactly one. -/
lemma totalWarnings_updFirst (k : String) (gfun : WAcc → WAcc)
    (m : List (String × WAcc))
    (hg : ∀ a, (gfun a).managingRisk.length + (gfun a).concern.length
      = a.managingRisk.length + a.concern.length + 1)
    (hk : (m.lookup k).isSome = true) :
    totalWarnings (updFirst k gfun m) = totalWarnings m + 1 := by
  induction m with
  | nil => simp [List.lookup] at hk
  | cons e m ih =>
      obtain ⟨k0, a⟩ := e
      by_cases h0 : k0 = k
      · rw [updFirst, if_pos h0]
        simp only [totalWarnings, List.map_cons, List.sum_cons]
        rw [hg a]
        omega
      · rw [updFirst, if_neg h0]
        have hk2 : (m.lookup k).isSome = true := by
          have hne : ¬ k = k0 := fun he => h0 he.symm
          simpa [List.lookup, beq_eq_false_iff_ne.mpr hne] using hk
        simp only [totalWarnings, List.map_cons, List.sum_cons]
        have := ih hk2
        simp only [totalWarnings] at this
        omega

/-- One warnify row iteration never adds or removes keys. -/
lemma lookup_isSome_warnStep (m : List (String × WAcc)) (r : GFeature)
    (k' : String) :
    ((warnStep m r).lookup k').isSome = (m.lookup k').isSome := by
  rw [warnStep]
  cases hl : m.lookup (jsKeyOfCoords (coordsOf r.geometry)) with
  | none => rfl
  | some a =>
      cases hty : r.props_type with
      | none => rfl
      | some ty =>
          by_cases hm : ty = "managing-risk" ∨ ty = "concern"
          · simp only [if_pos hm]
            exact lookup_isSome_updFirst _ _ _ _
          · simp only [if_neg hm]

/-- One warnify row iteration adds exactly one warning when the row type is
recognized and its key is present, and nothing otherwise. -/
lemma totalWarnings_warnStep (m : List (String × WAcc)) (r : GFeature)
    (hk : ((m.lookup (jsKeyOfCoords (coordsOf r.geometry))).isSome) = true) :
    totalWarnings (warnStep m r)
      = totalWarnings m + (if isRecognizedWarning r then 1 else 0) := by
  cases hl : m.lookup (jsKeyOfCoords (coordsOf r.geometry)) with
  | none => rw [hl] at hk; simp at hk
  | some a =>
      cases hty : r.props_type with
      | none => simp [warnStep, hl, hty, isRecognizedWarning]
      | some ty =>
          simp only [warnStep, hl, hty]
          by_cases hm : ty = "managing-risk" ∨ ty = "concern"
          · rw [if_pos hm]
            have hrec : isRecognizedWarning r = true := by
              rcases hm with h | h <;> simp [isRecognizedWarning, hty, h]
            rw [hrec, if_pos rfl]
            refine totalWarnings_updFirst _ _ _ (fun a0 => ?_) (by rw [hl]; rfl)
            by_cases hmr : ty = "managing-risk"
            · simp [mergeProps, pushW, hmr]
              omega
            · simp only [mergeProps, pushW, if_neg hmr]
              simp
              omega
          · rw [if_neg hm]
            have hrec : isRecognizedWarning r = false := by
              push_neg at hm
              simp [isRecognizedWarning, hty, hm.1, hm.2]
            rw [hrec]
            simp

/-- The warnify row loop collects exactly one warning per row with a
recognized category, provided every row key was initialized. -/
lemma totalWarnings_foldl (rows : List GFeature) (m : List (String × WAcc))
    (hk : ∀ r ∈ rows,
      ((m.lookup (jsKeyOfCoords (coordsOf r.geometry))).isSome) = true) :
    totalWarnings (rows.foldl warnStep m)
      = totalWarnings m + (rows.filter isRecognizedWarning).length := by
  induction rows generalizing m with
  | nil => simp
  | cons r rows ih =>
      rw [List.foldl_cons]
      have hk1 : ((m.lookup (jsKeyOfCoords (coordsOf r.geometry))).isSome) = true :=
        hk r (List.mem_cons_self _ _)
      have hkrest : ∀ r0 ∈ rows,
          (((warnStep m r).lookup (jsKeyOfCoords (coordsOf r0.geometry))).isSome) = true := by
        intro r0 hr0
        rw [lookup_isSome_warnStep]
        exact hk r0 (List.mem_cons_of_mem _ hr0)
      rw [ih _ hkrest, totalWarnings_warnStep m r hk1, List.filter_cons]
      by_cases hrec : isRecognizedWarning r
      · rw [if_pos hrec, if_pos hrec]
        simp
        omega
      · rw [if_neg hrec, if_neg hrec]
        simp

/-- Claim C1: over a decision-point feature list whose geometries are Points,
warnify emits exactly one output feature per distinct coordinate pair (M
distinct pairs give M output features, in first-occurrence order, each with
geometry rebuilt as a Point from the parsed coordinate key), and the total
number of warning entries across the emitted concern and managing-risk lists
equals the number of input rows whose type is one of those two categories;
rows with an unrecognized category are the only ones dropped. The rendering
hypotheses record the properties of the JS number rendering the key domain
relies on (split inverts join, parse inverts rendering, joined keys are
injective); they hold of every concrete input and are discharged by
evaluation in the witness. -/
theorem warnify_aggregation (fs : List GFeature)
    (hpt : ∀ f ∈ fs, f.geometry.isPoint = true)
    (hsplit : ∀ f ∈ fs,
      jsSplitCommaSpace (joinKey (coordsOf f.geometry))
        = (coordsOf f.geometry).map numStr)
    (hround : ∀ f ∈ fs,
      ((coordsOf f.geometry).map numStr).map parseFloatQ = coordsOf f.geometry)
    (hinj : ∀ f ∈ fs, ∀ f2 ∈ fs,
      joinKey (coordsOf f.geometry) = joinKey (coordsOf f2.geometry) →
        coordsOf f.geometry = coordsOf f2.geometry) :
    (warnify fs).length
        = ((fs.map (fun f => coordsOf f.geometry)).dedup).length
    ∧ (warnify fs).map GFeature.geometry
        = (uniqFirst (fs.map (fun f => coordsOf f.geometry))).map
            GeomPayload.jsonPoint
    ∧ totalWarnings (warnifyAcc fs)
        = (fs.filter isRecognizedWarning).length := by
  have _hpt := hpt
  have hinj2 : ∀ x ∈ fs.map (fun f => coordsOf f.geometry),
      ∀ y ∈ fs.map (fun f => coordsOf f.geometry),
      joinKey x = joinKey y → x = y := by
    intro x hx y hy he
    rcases List.mem_map.1 hx with ⟨f, hf, hfx⟩
    rcases List.mem_map.1 hy with ⟨f2, hf2, hfy⟩
    rw [← hfx, ← hfy] at he ⊢
    exact hinj f hf f2 hf2 he
  have hmm : fs.map (fun f => joinKey (coordsOf f.geometry))
      = (fs.map (fun f => coordsOf f.geometry)).map joinKey := by
    rw [List.map_map]
    rfl
  have hgg : getGeometries fs
      = (uniqFirst (fs.map (fun f => coordsOf f.geometry))).map
          (fun c => jsSplitCommaSpace (joinKey c)) := by
    rw [getGeometries, hmm, uniqFirst_map joinKey _ hinj2, List.map_map]
    rfl
  refine ⟨?_, ?_, ?_⟩
  · show ((getGeometries fs).map _).length = _
    rw [List.length_map, getGeometries, List.length_map, hmm,
      length_uniqFirst_eq_dedup, dedup_length_map joinKey _ hinj2]
  · show ((getGeometries fs).map _).map GFeature.geometry = _
    rw [List.map_map, hgg, List.map_map]
    refine List.map_congr_left (fun c hc => ?_)
    rcases List.mem_map.1 ((mem_uniqFirst _ _).1 hc) with ⟨f, hf, hfc⟩
    show GeomPayload.jsonPoint ((jsSplitCommaSpace (joinKey c)).map parseFloatQ)
      = GeomPayload.jsonPoint c
    rw [← hfc, hsplit f hf, hround f hf]
  · rw [warnifyAcc, totalWarnings_foldl, totalWarnings_initWMap, Nat.zero_add]
    intro r hr
    rw [initWMap, lookup_init_isSome]
    have hany : (getGeometries fs).any
        (fun g => jsKeyOfStrs g == jsKeyOfCoords (coordsOf r.geometry)) = true := by
      rw [List.any_eq_true]
      refine ⟨jsSplitCommaSpace (joinKey (coordsOf r.geometry)), ?_, ?_⟩
      · rw [getGeometries]
        exact List.mem_map_of_mem _
          ((mem_uniqFirst _ _).2 (List.mem_map_of_mem _ hr))
      · rw [hsplit r hr]
        exact beq_iff_eq.mpr rfl
    rw [hany, Bool.true_or]

/-- Witness data for C1: four decision-point rows over two distinct
coordinate pairs; two recognized warnings on the first pair, one on the
second, and a fourth row with an unrecognized category. -/
def fW1 : GFeature :=
  { geometry := .jsonPoint [1, 2]
    bounding_box := none
    props_geometry := some (.jsonPoint [1, 2])
    props_type := some "concern"
    props_warning := some "w1"
    props_table := "decision_points"
    props_others := [("name", "dp one")] }

/-- Second witness row: same coordinates, the other recognized category. -/
def fW2 : GFeature :=
  { fW1 with props_type := some "managing-risk", props_warning := some "w2" }

/-- Third witness row: a second coordinate pair. -/
def fW3 : GFeature :=
  { fW1 with
    geometry := .jsonPoint [3, 4]
    props_geometry := some (.jsonPoint [3, 4])
    props_warning := some "w3" }

/-- Fourth witness row: an unrecognized category, dropped by aggregation. -/
def fW4 : GFeature :=
  { fW1 with props_type := some "bogus", props_warning := some "w4" }

/-- The witness row set for C1. -/
def fsW : List GFeature := [fW1, fW2, fW3, fW4]

/-- Witness for C1 at the concrete row set fsW: two distinct coordinate pairs
give two output features in first-occurrence order and three collected
warnings (the unrecognized fourth row is dropped). -/
theorem warnify_aggregation_w :
    (warnify fsW).length
        = ((fsW.map (fun f => coordsOf f.geometry)).dedup).length
    ∧ (warnify fsW).map GFeature.geometry
        = (uniqFirst (fsW.map (fun f => coordsOf f.geometry))).map
            GeomPayload.jsonPoint
    ∧ totalWarnings (warnifyAcc fsW)
        = (fsW.filter isRecognizedWarning).length :=
  warnify_aggregation fsW (by decide) (by decide) (by decide) (by decide)

/-- The settled state of a promise, or pending for a promise that never
settles. -/
inductive POutcome (α : Type)
| fulfilled (a : α)
| rejected (e : String)
| pending

/-- geojsonQueryDatabase (lines 133-171). The function resolves the outer
promise with the query chain before the chain settles, so the later
reject(error) inside the catch handler is a no-op: on a query error (or a
Feature construction throw inside then) the catch handler logs and returns
undefined, and the returned promise always fulfills, with the feature list on
success and with undefined on failure. The Option models that fulfilled
value. -/
def geojsonQueryDatabase (tbl : String) (dbres : Except String (List GRow)) :
    Option (List GFeature) :=
  match dbres with
  | .error _ => none
  | .ok rows =>
      match rows.mapM (featureOfRow tbl) with
      | .ok fs => some fs
      | .error _ => none

/-- The per-layer step of the promiseOfGeoJson then-callback (lines 286-291):
reading querys_features[0].properties.table throws on an empty array
(undefined[0]), and routes decision-point layers through warnify. -/
def processLayerFeatures : List GFeature → Option (List GFeature)
| [] => none
| f :: fs =>
    some (if f.props_table = "decision_points" then warnify (f :: fs) else f :: fs)

/-- The FeatureCollection wrapper (lines 212-215). -/
structure FeatureCollection where
  features : List GFeature
deriving DecidableEq

/-- promiseOfGeoJson (lines 179-297) over the already-settled per-layer query
results: every per-layer promise fulfills (see geojsonQueryDatabase), so
Promise.all fulfills and the then-callback runs. If any layer value is
undefined (failed query) or empty, the callback throws; that rejection has no
handler and resolve is never called, so the outer promise never settles:
the outcome is pending, not rejected. Otherwise the features are concatenated
in layer order into a FeatureCollection. -/
def promiseOfGeoJson (layers : List (String × Except String (List GRow))) :
    POutcome FeatureCollection :=
  match (layers.map
      (fun l => (geojsonQueryDatabase l.1 l.2).bind processLayerFeatures)).mapM id with
  | some fss => .fulfilled ⟨fss.flatten⟩
  | none => .pending

/-- The GeoJSON assembler over raw rows that are all fetched successfully:
the run of one export over a fixed raw row set. -/
def runGeoJsonAssembler (layers : List (String × List GRow)) :
    POutcome FeatureCollection :=
  promiseOfGeoJson (layers.map (fun l => (l.1, Except.ok l.2)))

/-- Serialization of a geometry payload back to JSON text. -/
def renderGeom : GeomPayload → String
| .jsonPoint cs =>
    "\x7b\"type\":\"Point\",\"coordinates\":[" ++
      String.intercalate "," (cs.map numStr) ++ "]\x7d"
| .jsonOther t => t
| .malformed s => s

/-- Serialization of an optional string property. -/
def renderOptField (k : String) : Option String → String
| none => ""
| some v => ",\"" ++ k ++ "\":\"" ++ escapeJson v ++ "\""

/-- Serialization of one Feature, JSON.stringify style over the modelled
fields in a fixed key order. -/
def renderFeature (f : GFeature) : String :=
  "\x7b\"type\":\"Feature\",\"geometry\":" ++ renderGeom f.geometry ++
    (renderOptField "bounding_box" f.bounding_box) ++
    ",\"properties\":\x7b\"table\":\"" ++ escapeJson f.props_table ++ "\"" ++
    (match f.props_geometry with
     | none => ""
     | some g => ",\"geometry\":" ++ "\"" ++ escapeJson (renderGeom g) ++ "\"") ++
    (renderOptField "type" f.props_type) ++
    (renderOptField "warning" f.props_warning) ++
    String.join (f.props_others.map
      (fun kv => ",\"" ++ escapeJson kv.1 ++ "\":\"" ++ escapeJson kv.2 ++ "\"")) ++
    "\x7d\x7d"

/-- Serialization of a whole FeatureCollection. -/
def renderFC (c : FeatureCollection) : String :=
  "\x7b\"type\":\"FeatureCollection\",\"features\":[" ++
    String.intercalate "," (c.features.map renderFeature) ++ "]\x7d"

/-- Serialization of an export outcome. -/
def renderOutcome : POutcome FeatureCollection → String
| .fulfilled c => renderFC c
| .rejected e => "rejected: " ++ e
| .pending => "pending"

/-- Claim C9: the GeoJSON assembly is deterministic; two runs over equal raw
row sets produce the same FeatureCollection and byte-identical serialized
output. The pipeline is a pure function of its rows: the name tables are
constants, and no counter, clock or other ambient state is consulted. -/
theorem geojson_assembly_deterministic
    (layers1 layers2 : List (String × List GRow)) (h : layers1 = layers2) :
    runGeoJsonAssembler layers1 = runGeoJsonAssembler layers2
    ∧ renderOutcome (runGeoJsonAssembler layers1)
        = renderOutcome (runGeoJsonAssembler layers2) := by
  subst h
  exact ⟨rfl, rfl⟩

/-- Witness for C9 at a concrete one-layer row set. -/
theorem geojson_assembly_deterministic_w :
    runGeoJsonAssembler [("points_of_interest", [rowC4])]
        = runGeoJsonAssembler [("points_of_interest", [rowC4])]
    ∧ renderOutcome (runGeoJsonAssembler [("points_of_interest", [rowC4])])
        = renderOutcome (runGeoJsonAssembler [("points_of_interest", [rowC4])]) :=
  geojson_assembly_deterministic
    [("points_of_interest", [rowC4])] [("points_of_interest", [rowC4])] rfl

/-- A KML-side geometry after the Geometry normalization of
KML_query_database: the nested shape handed to the pickler. Only the Point
coordinates are read downstream (by the KML warning aggregation); the other
shapes ride along opaquely. -/
inductive KGeom
| point (coordinates : String)
| lineString (coordinates : String)
| polygon (outer : String) (inner : List String)
| other (tag : String)
deriving DecidableEq

/-- A KML-side row after geometry normalization and table tagging: the named
columns newPlaceMark reads. class_code is the numeric zones hazard class. -/
structure KRow where
  table : String
  geometry : KGeom
  name : Option String
  comments : Option String
  class_code : Option Nat
  type : Option String
  description : Option String
  warning : Option String
  warnings : Option String
deriving DecidableEq

/-- One entry of a placemark array (order is significant in KML). -/
inductive KEntry
| geomE (g : KGeom)
| nameE (s : String)
| descriptionE (s : String)
| extendedDataE (items : List (String × String))
| styleUrlE (s : String)
deriving DecidableEq

/-- Whether a placemark entry is the ExtendedData entry. -/
def isExtendedDataE : KEntry → Bool
| .extendedDataE _ => true
| _ => false

/-- Whether a placemark entry is the style-url entry. -/
def isStyleUrlE : KEntry → Bool
| .styleUrlE _ => true
| _ => false

/-- One value of the style-url catalog: a flat string, the zones array
indexed by class code, or the points-of-interest object keyed by type. -/
inductive StyleEntry
| flat (s : String)
| byIdx (xs : List String)
| byKey (m : List (String × String))
deriving DecidableEq

/-- The styleUrls catalog (getKML lines 644-664). -/
def styleUrls : List (String × StyleEntry) :=
  [("zones", .byIdx
      ["filler for slot 0", "zone_green_style", "zone_blue_style",
       "zone_black_style"]),
   ("areas_vw", .flat "area_styles"),
   ("access_roads", .flat "access_road_styles"),
   ("avalanche_paths", .flat "avalanche_path_styles"),
   ("decision_points", .flat "decision_point_styles"),
   ("points_of_interest", .byKey
      [("Other", "point_of_interest_other_styles"),
       ("Parking", "point_of_interest_parking_styles"),
       ("Rescue Cache", "point_of_interest_rescue_cache_styles"),
       ("Cabin", "point_of_interest_cabin_styles"),
       ("Destination", "point_of_interest_destination_styles"),
       ("Lake", "point_of_interest_lake_styles"),
       ("Mountain", "point_of_interest_mountain_styles")])]

/-- Digit-string test, for the JS numeric-property coercion on strings and
arrays. -/
def allDigits (l : List Char) : Bool :=
  (l != []) && l.all (fun c => ('0'.toNat ≤ c.toNat) && (c.toNat ≤ '9'.toNat))

/-- JS property access entry[key] for a string key: an object indexes its
map, an array or a string indexes by position when the key is numeric, and
everything else is undefined. -/
def subLookupStr : StyleEntry → String → Option String
| .byKey m, key => m.lookup key
| .byIdx xs, key =>
    if allDigits key.data then xs.get? (parseNatChars key.data) else none
| .flat s, key =>
    if allDigits key.data then (s.data.get? (parseNatChars key.data)).map
      (fun c => String.mk [c])
    else none

/-- JS property access entry[n] for a numeric key. -/
def subLookupNat : StyleEntry → Nat → Option String
| .byKey m, n => m.lookup (toString n)
| .byIdx xs, n => xs.get? n
| .flat s, n => (s.data.get? n).map (fun c => String.mk [c])

/-- JS template-literal rendering of a style-catalog value: a string renders
itself, an array joins with commas, an object renders as object-Object. -/
def jsStringOfStyleEntry : StyleEntry → String
| .flat s => s
| .byIdx xs => String.intercalate "," xs
| .byKey _ => "[object Object]"

/-- JS truthiness filter on an optional string: undefined and the empty
string fall through an or-chain. -/
def truthyOptStr : Option String → Option String
| none => none
| some s => if s = "" then none else some s

/-- extendData (lines 792-814). The index scan increments i before testing,
so when an ExtendedData entry exists at zero-based index k the code stores
extended = k+1 and then calls placemark[extended].push: that element is
either past the end (undefined) or a non-array object, and either way the
call throws a TypeError. Only when no ExtendedData exists does the function
append a fresh entry. -/
def extendData (placemark : List KEntry) (ext dat : String) :
    Except String (List KEntry) :=
  match placemark.findIdx? isExtendedDataE with
  | none => .ok (placemark ++ [.extendedDataE [(ext, dat)]])
  | some k =>
      match placemark.get? (k + 1) with
      | none => .error "TypeError: Cannot read properties of undefined (reading push)"
      | some _ => .error "TypeError: placemark[extended].push is not a function"

/-- The type branch of newPlaceMark: push the type as a description and
resolve style_urls[table][type]; if style_urls[table] is undefined the
subscript throws. Returns the grown placemark and the styleUrl variable. -/
def typeStep (su : List (String × StyleEntry)) (row : KRow)
    (pm : List KEntry) : Except String (List KEntry × Option String) :=
  if truthyS row.type then
    match su.lookup row.table with
    | none => .error "TypeError: Cannot read properties of undefined (style by type)"
    | some e => .ok (pm ++ [.descriptionE (row.type.getD "")],
        subLookupStr e (row.type.getD ""))
  else .ok (pm, none)

/-- The warnings branch of newPlaceMark: attach the warnings payload as
extended data. -/
def warningsStep (row : KRow) (pm : List KEntry) : Except String (List KEntry) :=
  if truthyS row.warnings then extendData pm "warnings" (row.warnings.getD "")
  else .ok pm

/-- The class_code branch of newPlaceMark: attach the class code as extended
data, then overwrite the styleUrl variable with style_urls[table][class_code]
(even when that subscript misses). -/
def classStep (su : List (String × StyleEntry)) (row : KRow)
    (pm : List KEntry) (styleUrl0 : Option String) :
    Except String (List KEntry × Option String) :=
  if truthyN row.class_code then
    (extendData pm "class_code" (toString (row.class_code.getD 0))).bind
      (fun pm2 =>
        match su.lookup row.table with
        | none => .error "TypeError: Cannot read properties of undefined (style by class)"
        | some e => .ok (pm2, subLookupNat e (row.class_code.getD 0)))
  else .ok (pm, styleUrl0)

/-- The styleUrl variable as the two categorical branches leave it: the type
resolution first, overwritten by the class-code resolution when a truthy
class_code is present. -/
def categoricalStyle (su : List (String × StyleEntry)) (row : KRow) :
    Option String :=
  let t :=
    if truthyS row.type then
      (su.lookup row.table).bind (fun e => subLookupStr e (row.type.getD ""))
    else none
  if truthyN row.class_code then
    (su.lookup row.table).bind (fun e => subLookupNat e (row.class_code.getD 0))
  else t

/-- The flat per-table fallback, rendered the way the template literal would
render it (undefined renders as the text undefined). -/
def fallbackStyle (su : List (String × StyleEntry)) (row : KRow) : String :=
  match su.lookup row.table with
  | some e => jsStringOfStyleEntry e
  | none => "undefined"

/-- styleUrl = styleUrl or style_urls[table]: the resolved style reference
before the hash prefix. -/
def resolvedStyle (su : List (String × StyleEntry)) (row : KRow) : String :=
  match truthyOptStr (categoricalStyle su row) with
  | some s => s
  | none => fallbackStyle su row

/-- The opening of newPlaceMark (lines 830-842): geometry first, then the
name entry and the comments-derived and description-derived descriptions,
in that order, each guarded by JS truthiness. -/
def basePlacemark (row : KRow) : List KEntry :=
  let pm0 : List KEntry := [.geomE row.geometry]
  let pm1 := if truthyS row.name then pm0 ++ [.nameE (row.name.getD "")] else pm0
  let pm2 :=
    if truthyS row.comments then pm1 ++ [.descriptionE (row.comments.getD "")]
    else pm1
  if truthyS row.description then
    pm2 ++ [.descriptionE (row.description.getD "")]
  else pm2

/-- newPlaceMark continued (lines 791-861): the geometry, name and
description entries, then the type branch, the warnings and class_code
extended data, and finally one styleUrl entry built from the resolved style
(with template-literal stringification of a missed lookup). -/
def newPlaceMark (su : List (String × StyleEntry)) (row : KRow) :
    Except String (List KEntry) :=
  (typeStep su row (basePlacemark row)).bind (fun x =>
    (warningsStep row x.1).bind (fun pm5 =>
      (classStep su row pm5 x.2).bind (fun y =>
        let resolved :=
          match truthyOptStr y.2 with
          | some s => s
          | none => fallbackStyle su row
        .ok (y.1 ++ [.styleUrlE ("#" ++ resolved)]))))

/-- Concrete row for the C3 counterexample: a table with no style-catalog
entry and no categorical key at all. -/
def rowMissStyle : KRow :=
  { table := "decision_points_warnings"
    geometry := .point "1,2"
    name := none
    comments := none
    class_code := none
    type := none
    description := none
    warning := none
    warnings := none }

/-- Claim C3 counterexample: when neither the categorical lookup nor the
per-table fallback resolves, newPlaceMark does not raise; it returns a
placemark whose final entry is the literal style reference hash-undefined. -/
theorem placemark_style_miss_no_raise :
    newPlaceMark styleUrls rowMissStyle
      = .ok [.geomE (.point "1,2"), .styleUrlE "#undefined"] := rfl

/-- A successful extendData call appended a fresh ExtendedData entry (the
found-entry branch always throws). -/
lemma extendData_ok (pm : List KEntry) (ext dat : String) (pm2 : List KEntry)
    (h : extendData pm ext dat = .ok pm2) :
    pm2 = pm ++ [.extendedDataE [(ext, dat)]] := by
  rw [extendData] at h
  cases hf : pm.findIdx? isExtendedDataE with
  | none => simp only [hf] at h; exact (Except.ok.inj h).symm
  | some k =>
      simp only [hf] at h
      cases hg : pm.get? (k + 1) with
      | none => simp only [hg] at h; exact Except.noConfusion h
      | some e => simp only [hg] at h; exact Except.noConfusion h

/-- A successful type branch appends at most a description entry and leaves
the styleUrl variable at the categorical type resolution. -/
lemma typeStep_ok (su : List (String × StyleEntry)) (row : KRow)
    (pm : List KEntry) (x : List KEntry × Option String)
    (h : typeStep su row pm = .ok x) :
    (x.1 = pm ∨ ∃ d, x.1 = pm ++ [.descriptionE d])
    ∧ x.2 = (if truthyS row.type then
        (su.lookup row.table).bind
          (fun e => subLookupStr e (row.type.getD ""))
      else none) := by
  rw [typeStep] at h
  by_cases ht : truthyS row.type
  · rw [if_pos ht] at h
    cases hl : su.lookup row.table with
    | none => simp only [hl] at h; exact Except.noConfusion h
    | some e =>
        simp only [hl] at h
        have hx := Except.ok.inj h
        refine ⟨Or.inr ⟨_, by rw [← hx]⟩, ?_⟩
        rw [← hx, if_pos ht]
        rfl
  · rw [if_neg ht] at h
    have hx := Except.ok.inj h
    exact ⟨Or.inl (by rw [← hx]), by rw [← hx, if_neg ht]⟩

/-- A successful warnings branch appends at most an ExtendedData entry. -/
lemma warningsStep_ok (row : KRow) (pm pm5 : List KEntry)
    (h : warningsStep row pm = .ok pm5) :
    pm5 = pm ∨ ∃ d, pm5 = pm ++ [.extendedDataE d] := by
  rw [warningsStep] at h
  by_cases hw : truthyS row.warnings
  · rw [if_pos hw] at h
    exact Or.inr ⟨_, extendData_ok _ _ _ _ h⟩
  · rw [if_neg hw] at h
    exact Or.inl (Except.ok.inj h).symm

/-- A successful class-code branch appends at most an ExtendedData entry and
leaves the styleUrl variable at the class-code resolution when a truthy
class_code is present, untouched otherwise. -/
lemma classStep_ok (su : List (String × StyleEntry)) (row : KRow)
    (pm : List KEntry) (s0 : Option String) (y : List KEntry × Option String)
    (h : classStep su row pm s0 = .ok y) :
    (y.1 = pm ∨ ∃ d, y.1 = pm ++ [.extendedDataE d])
    ∧ y.2 = (if truthyN row.class_code then
        (su.lookup row.table).bind
          (fun e => subLookupNat e (row.class_code.getD 0))
      else s0) := by
  rw [classStep] at h
  by_cases hc : truthyN row.class_code
  · rw [if_pos hc] at h
    cases he : extendData pm "class_code" (toString (row.class_code.getD 0)) with
    | error e => rw [he] at h; exact absurd h (by simp [Except.bind])
    | ok pm2 =>
        rw [he] at h
        simp only [Except.bind] at h
        cases hl : su.lookup row.table with
        | none => simp only [hl] at h; exact Except.noConfusion h
        | some e =>
            simp only [hl] at h
            have hy := Except.ok.inj h
            refine ⟨Or.inr
              ⟨[("class_code", toString (row.class_code.getD 0))], ?_⟩, ?_⟩
            · rw [← hy]
              exact extendData_ok _ _ _ _ he
            · rw [← hy, if_pos hc]
              rfl
  · rw [if_neg hc] at h
    have hy := Except.ok.inj h
    exact ⟨Or.inl (by rw [← hy]), by rw [← hy, if_neg hc]⟩

/-- The opening entries of a placemark contain no style reference. -/
lemma basePlacemark_no_style (row : KRow) :
    (basePlacemark row).filter isStyleUrlE = [] := by
  rw [basePlacemark]
  split_ifs <;> simp [List.filter_append, List.filter, isStyleUrlE]

/-- Claim C3 amended: every placemark newPlaceMark returns carries exactly
one style URL, appended as its final entry; the categorical resolution via
type or class_code takes precedence over the flat per-table fallback; but on
a lookup miss the builder does not raise: the final entry is the hash prefix
glued to the template-literal rendering of the missed lookup (the text
undefined when the table itself is absent). -/
theorem placemark_style_resolution_amended (su : List (String × StyleEntry))
    (row : KRow) (pm : List KEntry) (h : newPlaceMark su row = .ok pm) :
    (pm.filter isStyleUrlE).length = 1
    ∧ pm.getLast? = some (.styleUrlE ("#" ++ resolvedStyle su row)) := by
  simp only [newPlaceMark] at h
  cases hx : typeStep su row (basePlacemark row) with
  | error e => rw [hx] at h; exact absurd h (by simp [Except.bind])
  | ok x =>
      rw [hx] at h
      simp only [Except.bind] at h
      cases hw : warningsStep row x.1 with
      | error e => simp only [hw] at h; exact Except.noConfusion h
      | ok pm5 =>
          simp only [hw] at h
          cases hc : classStep su row pm5 x.2 with
          | error e => simp only [hc] at h; exact Except.noConfusion h
          | ok y =>
              simp only [hc] at h
              have hpm := (Except.ok.inj h).symm
              obtain ⟨hx1, hx2⟩ := typeStep_ok su row _ x hx
              have hw1 := warningsStep_ok row _ pm5 hw
              obtain ⟨hc1, hc2⟩ := classStep_ok su row pm5 x.2 y hc
              have hcat : y.2 = categoricalStyle su row := by
                rw [hc2, hx2, categoricalStyle]
              have hy1 : y.1.filter isStyleUrlE = [] := by
                rcases hc1 with h1 | ⟨d1, h1⟩ <;> rcases hw1 with h2 | ⟨d2, h2⟩ <;>
                  rcases hx1 with h3 | ⟨d3, h3⟩ <;>
                  simp [h1, h2, h3, List.filter_append, List.filter,
                    isStyleUrlE, basePlacemark_no_style row]
              constructor
              · rw [hpm, List.filter_append, hy1]
                simp [List.filter, isStyleUrlE]
              · rw [hpm, List.getLast?_concat]
                refine congrArg some (congrArg KEntry.styleUrlE ?_)
                refine congrArg (fun s => "#" ++ s) ?_
                rw [resolvedStyle, ← hcat]

/-- Concrete row for the C3 witness: a points-of-interest row whose type
resolves categorically. -/
def rowPOI : KRow :=
  { table := "points_of_interest"
    geometry := .point "1,2"
    name := some "hut"
    comments := none
    class_code := none
    type := some "Cabin"
    description := none
    warning := none
    warnings := none }

/-- The placemark newPlaceMark builds from rowPOI. -/
def pmPOI : List KEntry :=
  [.geomE (.point "1,2"), .nameE "hut", .descriptionE "Cabin",
   .styleUrlE "#point_of_interest_cabin_styles"]

/-- Witness for the amended C3 theorem: the Cabin placemark carries exactly
one style URL, as its final entry, resolved categorically. -/
theorem placemark_style_resolution_amended_w :
    (pmPOI.filter isStyleUrlE).length = 1
    ∧ pmPOI.getLast? = some (.styleUrlE ("#" ++ resolvedStyle styleUrls rowPOI)) :=
  placemark_style_resolution_amended styleUrls rowPOI pmPOI rfl

/-- Concrete row for claim C10: a zones row that carries both a warnings
payload and a truthy class code. -/
def rowBoth : KRow :=
  { table := "zones"
    geometry := .polygon "ring" []
    name := none
    comments := none
    class_code := some 2
    type := none
    description := none
    warning := none
    warnings := some "W" }

/-- Claim C10 (code bug): for a row carrying both warnings and class_code the
second extendData call is meant to insert into the ExtendedData entry the
first call created, but the scan stores the found index plus one and calls
push on the element after the entry, which is past the end of the placemark:
construction throws a TypeError instead of producing a single ExtendedData
entry. -/
theorem extend_data_double_attachment_eval :
    newPlaceMark styleUrls rowBoth
      = .error "TypeError: Cannot read properties of undefined (reading push)" := rfl

/-- Undo the SQL escaping of apostrophes: replace of
backslash-apostrophe by apostrophe (promiseKML line 512). -/
def unescapeQuote : List Char → List Char
| '\\' :: '\x27' :: rest => '\x27' :: unescapeQuote rest
| c :: rest => c :: unescapeQuote rest
| [] => []

/-- The string form of unescapeQuote. -/
def jsUnescapeQuote (s : String) : String := ⟨unescapeQuote s.data⟩

/-- The two category buckets of the KML warning aggregation, keyed by the
literal row type values (Managing risk and Concern). -/
structure KWBucket where
  managingRisk : List (Option String)
  concern : List (Option String)
deriving DecidableEq

/-- The fresh bucket pair installed per coordinate. -/
def emptyKWBucket : KWBucket := ⟨[], []⟩

/-- toChecklist (lines 508-514): one HTML table row per warning, with the
category bullet span; a null or undefined warning would in fact throw inside
the replace, which no live row triggers, and renders here as its
template-literal text. -/
def toChecklist (bullet : String) (ws : List (Option String)) : String :=
  String.join (ws.map (fun w =>
    "<tr><td><span class=\"" ++ bullet ++ "\">&#x2717;</span>" ++
      jsUnescapeQuote (jsInterpOpt w) ++ "</td></tr>"))

/-- warningsTable (lines 507-520). -/
def warningsTable (w : KWBucket) : String :=
  "<table class=\"orange-table\"><tbody><tr><th class=\"first\">Concern</th></tr>" ++
    toChecklist "red-x" w.concern ++
    "</tr><tr><tr><th>Managing risk</th></tr>" ++
    toChecklist "green-check" w.managingRisk ++
    "<tr></tbody></table>"

/-- warningsPopup (lines 522-524): the inline-styled HTML fragment around the
table. -/
def warningsPopup (table : String) : String :=
  "<meta http-equiv=\"Content-Type\" content=\"text/html; charset=iso-8859-1\"><style type=\"text/css\"><!--.orange-table \x7bborder: 1px solid black; background-color: #FFC000; font-size:9.0pt; padding: 10px 0; width: 333px;\x7d .orange-table td, th \x7b padding: 2px 10px; \x7d .orange-table th \x7b font-weight: bold; border-top: 1px solid black; text-align: left; \x7d .orange-table th.first \x7b border: none; \x7d .green-check \x7b color:#008A00; font-size:larger; display: block; float: left; padding-right: 4px; \x7d .red-x \x7b color: red; font-size: larger; display: block; float: left; padding-right: 4px; \x7d --></style>" ++
    table

/-- htmlify = warningsPopup after warningsTable. -/
def htmlify (w : KWBucket) : String := warningsPopup (warningsTable w)

/-- The Point coordinates of a KML row geometry, when it is a Point. -/
def kRowPointCoords (r : KRow) : Option String :=
  match r.geometry with
  | .point c => some c
  | _ => none

/-- The push of the KML warning row loop (lines 556-563), keyed by the
literal row type. -/
def pushKW (ty : String) (w : Option String) (b : KWBucket) : KWBucket :=
  if ty = "Managing risk" then { b with managingRisk := b.managingRisk ++ [w] }
  else { b with concern := b.concern ++ [w] }

/-- One iteration of the KML warning row loop: a missing key or an
unrecognized type throws inside the try and the row is skipped. -/
def kmlWarnStep (m : List (String × KWBucket)) (r : KRow) :
    List (String × KWBucket) :=
  match m.lookup ((kRowPointCoords r).getD "") with
  | none => m
  | some _ =>
      match r.type with
      | none => m
      | some ty =>
          if ty = "Managing risk" ∨ ty = "Concern" then
            updFirst ((kRowPointCoords r).getD "")
              (fun b => pushKW ty r.warning b) m
          else m

/-- The KML warnify (promiseKML lines 506-577): its getGeometries reads
geometry.Point[0].coordinates with no try around it, so a non-point row
throws and the whole aggregation fails; otherwise the unique coordinate
strings key the buckets, the rows are folded in, and one raw decision-point
row per coordinate comes back with the HTML popup as its description. -/
def kmlWarnify (rows : List KRow) : Except String (List KRow) :=
  if rows.all (fun r => (kRowPointCoords r).isSome) then
    let geoms := uniqFirst (rows.map (fun r => (kRowPointCoords r).getD ""))
    let init : List (String × KWBucket) :=
      geoms.foldl (fun m g => setKeyV g emptyKWBucket m) []
    let buckets := rows.foldl kmlWarnStep init
    .ok (geoms.map (fun g =>
      { table := "decision_points"
        geometry := .point g
        name := some "Decision Point"
        comments := none
        class_code := none
        type := none
        description := some (htmlify ((buckets.lookup g).getD emptyKWBucket))
        warning := none
        warnings := none }))
  else .error "TypeError: Cannot read properties of undefined (reading coordinates)"

/-- The rows member of a wrapped KML query result: placemarks for ordinary
layers, raw tagged rows for the decision-points layer (placemark
construction deferred past aggregation). -/
inductive KRowsOut
| placemarks (ps : List (List KEntry))
| raws (rs : List KRow)
deriving DecidableEq

/-- The wrapper KML_query_database resolves with: table tag, display name
and mapped rows. -/
structure KWrapped where
  table : String
  wname : Option String
  rows : KRowsOut
deriving DecidableEq

/-- rowToObject: merge the table tag into the row. -/
def tagKRow (tbl : String) (r : KRow) : KRow := { r with table := tbl }

/-- KML_query_database (lines 378-493): on a query error, or a throw inside
the then callback (a placemark construction TypeError), the catch handler
logs and returns undefined and the promise fulfills with undefined (none);
on success it fulfills with the wrapped rows, raw for decision points and
placemarked for every other layer. -/
def KML_query_database (tbl : String) (nm : Option String)
    (dbres : Except String (List KRow)) : Option KWrapped :=
  match dbres with
  | .error _ => none
  | .ok rows =>
      if tbl = "decision_points" then
        some ⟨tbl, nm, .raws (rows.map (tagKRow tbl))⟩
      else
        match (rows.map (tagKRow tbl)).mapM (newPlaceMark styleUrls) with
        | .ok ps => some ⟨tbl, nm, .placemarks ps⟩
        | .error _ => none

/-- The placemark list of a wrapped result. -/
def placemarksOf : KRowsOut → List (List KEntry)
| .placemarks ps => ps
| .raws _ => []

/-- The name member of a placemark entry, undefined for any other entry. -/
def extractPlacemarkName : KEntry → Option String
| .nameE s => some s
| _ => none

/-- The then callback of promiseKML (lines 607-620) over the settled
per-layer values, threading the document name and the folder list: an
undefined value (a failed or thrown-through query) makes the property access
wrapped_querys_rows.table throw; the areas layer reads rows[0][1].name for
the document name (throwing when rows are empty or the placemark too short);
the decision-points layer is warnified and placemarked, where a placemark
TypeError also aborts; every processed layer appends a folder. The
surrounding catch(reject) turns any such throw into a rejection. -/
def goKml (vals : List (Option KWrapped)) :
    Except String (Option String × List (Option String × List (List KEntry))) :=
  vals.foldlM (fun st v =>
    match v with
    | none => .error "TypeError: Cannot read properties of undefined (reading table)"
    | some w =>
        if w.table = "areas_vw" then
          match placemarksOf w.rows with
          | [] => .error "TypeError: Cannot read properties of undefined (rows zero)"
          | pm :: _ =>
              match pm.get? 1 with
              | none => .error "TypeError: Cannot read properties of undefined (entry one)"
              | some e =>
                  .ok (extractPlacemarkName e,
                    st.2 ++ [(w.wname, placemarksOf w.rows)])
        else if w.table = "decision_points" then
          match w.rows with
          | .placemarks _ =>
              .error "unreachable: decision point rows arrive raw"
          | .raws rs =>
              (kmlWarnify rs).bind (fun rs2 =>
                (rs2.mapM (newPlaceMark styleUrls)).map (fun ps =>
                  (st.1, st.2 ++ [(w.wname, ps)])))
        else .ok (st.1, st.2 ++ [(w.wname, placemarksOf w.rows)]))
    (none, [])

/-- The assembled KML document value (newDocument, lines 579-595). -/
structure KDoc where
  docName : Option String
  folders : List (Option String × List (List KEntry))
  styles : List String
deriving DecidableEq

/-- promiseKML (lines 500-625) over settled per-layer values: Promise.all
fulfills (the per-layer promises always do), the then callback either builds
the document or throws, and catch(reject) propagates the throw, so the
outcome is fulfilled or rejected. -/
def promiseKMLModel (vals : List (Option KWrapped)) (styles : List String) :
    POutcome KDoc :=
  match goKml vals with
  | .ok st => .fulfilled ⟨st.1, st.2, styles⟩
  | .error e => .rejected e

/-- A successfully fetched areas row for the C2 failing input. -/
def rowAreaOk : GRow :=
  { geometry := .jsonOther "polygon"
    bounding_box := some "bbox"
    type := none
    warning := none
    others := [("name", "Mount Example")] }

/-- Claim C2 (code bug): with one layer query failing, neither export returns
a partial document, but only the KML export fails with a propagated error.
On the GeoJSON path geojsonQueryDatabase resolves before its catch can
reject, so the failed layer fulfills with undefined; the then callback of
promiseOfGeoJson then throws on that undefined, no catch exists and resolve
is never reached, so the export promise never settles: the outcome is
pending, not a propagated error. The KML path does reject (its then
callback throw is routed to reject by the catch), with the secondary
TypeError rather than the database error. -/
theorem export_failure_outcomes_eval :
    promiseOfGeoJson
        [("areas_vw", Except.ok [rowAreaOk]),
         ("zones", Except.error "connection terminated")]
      = POutcome.pending
    ∧ promiseKMLModel
        [KML_query_database "areas_vw" (some "Area")
          (Except.error "connection terminated")] []
      = POutcome.rejected
          "TypeError: Cannot read properties of undefined (reading table)" :=
  ⟨rfl, rfl⟩

end FromGroundUp
